import Mathlib

/-!
Verification of the pen web framework core: the request lifecycle pipeline
(src/src/app.rs), module composition (src/src/module.rs) and the byte-range
file responder (src/src/helpers.rs), shallowly embedded in Lean 4.

Conventions of the embedding:
* Rust functions taking `&mut` state become Lean functions returning the new
  state; `Fn` closures become Lean functions of the same signature.
* Machine integers (u64/u16) are `Nat`; checked u64 arithmetic that can
  underflow or overflow (a Rust arithmetic failure under debug assertions)
  is modelled with `Option Nat`, and a whole computation that can fail that
  way returns `Option _` with `none` marking the failure.
* `HashMap` becomes an association list with replace-on-insert semantics;
  only lookup, insert and contains are ever used by the source, so iteration
  order never matters.
* Side effects that are otherwise unobservable (teardown hooks, the error
  log written by eprintln) are made observable by threading an explicit
  `World` (a list of emitted strings) through them.
* External collaborators that the spec keeps out of scope (the URL matcher,
  the filesystem, the mime guesser) are supplied as an explicit `Ext`
  record of functions, quantified over in the theorems.
-/

namespace Pen

/-- HTTP methods (hyper::method::Method, restricted to the variants the
source mentions). -/
inductive Method where
  | Options | Get | Post | Put | Delete | Head | Patch
deriving DecidableEq

/-- Rendering of a method as hyper Display prints it (used by the error
log line). -/
def Method.str : Method → String
  | .Options => "OPTIONS"
  | .Get => "GET"
  | .Post => "POST"
  | .Put => "PUT"
  | .Delete => "DELETE"
  | .Head => "HEAD"
  | .Patch => "PATCH"

/-- A response body: either raw bytes (file contents) or a string body. -/
inductive Body where
  | bytes (bs : List Nat)
  | str (s : String)
deriving DecidableEq

/-- One typed header value, mirroring the hyper typed headers the source
sets (ContentLength, ContentRange, ContentType, Location, Allow) plus raw
headers set with set_raw. -/
inductive HeaderVal where
  | contentLength (n : Nat)
  | contentRange (range : Option (Nat × Nat)) (instanceLength : Option Nat)
  | contentType (mime : String)
  | location (url : String)
  | allow (methods : List Method)
  | raw (hname hvalue : String)
deriving DecidableEq

/-- The header name a HeaderVal stands for; hyper Headers.set replaces the
header with the same name. -/
def hkey : HeaderVal → String
  | .contentLength _ => "Content-Length"
  | .contentRange _ _ => "Content-Range"
  | .contentType _ => "Content-Type"
  | .location _ => "Location"
  | .allow _ => "Allow"
  | .raw n _ => n

/-- Headers.set: replace any header of the same name. -/
def hset (h : HeaderVal) (hs : List HeaderVal) : List HeaderVal :=
  h :: hs.filter (fun x => hkey x != hkey h)

/-- First Content-Length header value, if any. -/
def getContentLength : List HeaderVal → Option Nat
  | [] => none
  | .contentLength n :: _ => some n
  | _ :: t => getContentLength t

/-- First Content-Range header value, if any. -/
def getContentRange : List HeaderVal → Option (Option (Nat × Nat) × Option Nat)
  | [] => none
  | .contentRange r il :: _ => some (r, il)
  | _ :: t => getContentRange t

/-- wrappers.rs Response: status code (default 200), headers, optional
body producer. -/
structure Response where
  status_code : Nat
  headers : List HeaderVal
  body : Option Body
deriving DecidableEq

/-- Response::new: status 200 and a default text/html ContentType header,
with the given body. -/
def Response.new (b : Body) : Response :=
  { status_code := 200
    headers := [HeaderVal.contentType "text/html; charset=UTF-8"]
    body := some b }

/-- Response::new_empty: status 200, no headers, no body. -/
def Response.new_empty : Response :=
  { status_code := 200, headers := [], body := none }

/-- Response::from(String): Response::new on the string bytes plus
set_content_length with the byte length of the string. -/
def Response.fromString (s : String) : Response :=
  let r := Response.new (Body.str s)
  { r with headers := hset (.contentLength s.utf8ByteSize) r.headers }

/-- types.rs UserError: a free-form description string that doubles as the
handler lookup key. -/
structure UserError where
  desc : String
deriving DecidableEq

/-- Modelled from the spec: http_errors.rs is not under src/.  Per spec
section 7, an HTTP error carries a numeric status code and a fixed
human-readable description. -/
structure HTTPError where
  code : Nat
deriving DecidableEq

/-- Modelled from the spec: the fixed description attached to each status
code (http_errors.rs is not under src/); only the codes the source under
src/ names are listed, the rest share a generic description. -/
def HTTPError.description (e : HTTPError) : String :=
  if e.code = 404 then "Not Found"
  else if e.code = 405 then "Method Not Allowed"
  else if e.code = 500 then "Internal Server Error"
  else if e.code = 501 then "Not Implemented"
  else "Unknown Error"

/-- Modelled from the spec: the canonical default rendering of an HTTP
error into a Response (spec sections 4.1 and 7): its status code with a
textual body. -/
def HTTPError.to_response (e : HTTPError) : Response :=
  { status_code := e.code
    headers := [HeaderVal.contentType "text/html; charset=UTF-8"]
    body := some (Body.str (HTTPError.description e)) }

def NotFound : HTTPError := ⟨404⟩
def NotImplemented : HTTPError := ⟨501⟩
def InternalServerError : HTTPError := ⟨500⟩

/-- types.rs PencilError: tagged union of the two error families. -/
inductive PencilError where
  | PenHTTPError (e : HTTPError)
  | PenUserError (e : UserError)
deriving DecidableEq

/-- Error::description on PencilError delegates to the wrapped error. -/
def PencilError.description : PencilError → String
  | .PenHTTPError e => e.description
  | .PenUserError e => e.desc

/-- hyper ByteRangeSpec. -/
inductive ByteRangeSpec where
  | FromTo (s e : Nat)
  | AllFrom (s : Nat)
  | Last (n : Nat)
deriving DecidableEq

/-- hyper Range header: a bytes range with a list of spans, or any other
(unregistered) range unit. -/
inductive RangeHeader where
  | Bytes (specs : List ByteRangeSpec)
  | Unregistered (unit value : String)
deriving DecidableEq

/-- Modelled from the spec: routing.rs is not under src/.  Per spec
section 3 a Rule holds the matcher pattern, the allowed methods, the
endpoint name and the automatic-OPTIONS flag.  The matcher is kept as the
pattern string (its internals are out of scope per spec section 1). -/
structure Rule where
  matcher : String
  methods : List Method
  endpoint : String
  provide_automatic_options : Bool
deriving DecidableEq

/-- Modelled from the spec: Rule::new (routing.rs is not under src/)
stores matcher, methods and endpoint; the spec does not fix the default of
the automatic-OPTIONS flag and no claim depends on it, so it is false
here. -/
def Rule.new (matcher : String) (methods : List Method) (endpoint : String) : Rule :=
  { matcher := matcher, methods := methods, endpoint := endpoint
    provide_automatic_options := false }

/-- wrappers.rs Request, restricted to the fields the pipeline under
verification reads: method, path, the Range header (the one header the
static-file view functions fetch), the routing outcome triple and the
per-request extension data.  The app back-reference is passed separately
wherever the source reads request.app (it is always the handling app). -/
structure Request where
  method : Method
  path : String
  rangeHeader : Option RangeHeader
  url_rule : Option Rule
  view_args : List (String × String)
  routing_redirect : Option (String × Nat)
  routing_error : Option HTTPError
  extensions : List (String × String)
deriving DecidableEq

/-- Request::endpoint: the endpoint of the bound rule, if any. -/
def Request.endpoint (req : Request) : Option String :=
  match req.url_rule with
  | some rule => some rule.endpoint
  | none => none

/-- Characters of an endpoint before its last dot, or none when it has no
dot: the semantics of rsplitn(2, char).nth(1) used by module_name. -/
def beforeLastDotAux : List Char → Option (List Char)
  | [] => none
  | c :: rest =>
    match beforeLastDotAux rest with
    | some tail => some (c :: tail)
    | none => if c = '.' then some [] else none

/-- Request::module_name: when the bound endpoint contains a dot, the part
before the last dot, else none. -/
def Request.module_name (req : Request) : Option String :=
  match req.endpoint with
  | some ep =>
    match beforeLastDotAux ep.data with
    | some cs => some (String.mk cs)
    | none => none
  | none => none

/-- The Pencil result type: a response or an error. -/
abbrev PencilResult := Except PencilError Response

/-- The world of otherwise-unobservable side effects (teardown actions,
log lines), threaded explicitly. -/
abbrev World := List String

/-- Before-request hook: may mutate the request and may short-circuit with
a result. -/
abbrev BeforeRequestFunc := Request → Request × Option PencilResult

/-- After-request hook: mutates the response in place given the request. -/
abbrev AfterRequestFunc := Request → Response → Response

/-- Teardown hook: receives the terminal error (or none) and performs side
effects only, modelled on the explicit world. -/
abbrev TeardownRequestFunc := Option PencilError → World → World

/-- Handler for an HTTP error. -/
abbrev HTTPErrorHandler := HTTPError → PencilResult

/-- Handler for a user error. -/
abbrev UserErrorHandler := UserError → PencilResult

/-- A registered view function: either a user handler, or one of the two
built-in static-file responders (send_app_static_file in app.rs and
send_module_static_file in module.rs), which read request.app and are
therefore interpreted by runView with the app passed explicitly. -/
inductive ViewFunc where
  | user (f : Request → Request × PencilResult)
  | appStatic
  | moduleStatic

/-- The deferred app-scoped registrations a Module records.  In the source
these are closures created exclusively by record() inside
before_app_request, after_app_request, teardown_app_request,
app_httperrorhandler and app_usererrorhandler; each captures the hook or
handler and calls the matching application registration method, so they
defunctionalize exactly into this command type. -/
inductive DeferredCmd where
  | before (f : BeforeRequestFunc)
  | after (f : AfterRequestFunc)
  | teardown (f : TeardownRequestFunc)
  | httph (code : Nat) (h : HTTPErrorHandler)
  | userh (desc : String) (h : UserErrorHandler)

/-- module.rs Module. -/
structure Module where
  name : String
  root_path : String
  static_folder : Option String
  static_url_path : Option String
  template_folder : Option String
  before_request_funcs : List BeforeRequestFunc
  after_request_funcs : List AfterRequestFunc
  teardown_request_funcs : List TeardownRequestFunc
  http_error_handlers : List (Nat × HTTPErrorHandler)
  user_error_handlers : List (String × UserErrorHandler)
  deferred_functions : List DeferredCmd
  deferred_routes : List (String × List Method × String × ViewFunc)

/-- app.rs Pencil. -/
structure Pencil where
  root_path : String
  name : String
  static_folder : String
  static_url_path : String
  template_folder : String
  url_map : List Rule
  modules : List (String × Module)
  view_functions : List (String × ViewFunc)
  before_request_funcs : List BeforeRequestFunc
  after_request_funcs : List AfterRequestFunc
  teardown_request_funcs : List TeardownRequestFunc
  http_error_handlers : List (Nat × HTTPErrorHandler)
  user_error_handlers : List (String × UserErrorHandler)

/-- HashMap::insert on the association-list model: replace any existing
binding of the key. -/
def mapInsert {β : Type} (l : List (String × β)) (k : String) (v : β) : List (String × β) :=
  (k, v) :: l.filter (fun p => p.1 != k)

/-- HashMap::insert for Nat keys. -/
def mapInsertNat {β : Type} (l : List (Nat × β)) (k : Nat) (v : β) : List (Nat × β) :=
  (k, v) :: l.filter (fun p => p.1 != k)

/-- Pencil::new. -/
def Pencil.new (root_path : String) : Pencil :=
  { root_path := root_path
    name := root_path
    static_folder := "static"
    static_url_path := "/static"
    template_folder := "templates"
    url_map := []
    modules := []
    view_functions := []
    before_request_funcs := []
    after_request_funcs := []
    teardown_request_funcs := []
    http_error_handlers := []
    user_error_handlers := [] }

/-- Pencil::add_url_rule: add the rule to the url map (Map::add is
modelled from the spec as appending to the routing table, routing.rs not
being under src/) and insert the view function under the endpoint. -/
def Pencil.add_url_rule (app : Pencil) (matcher : String) (methods : List Method)
    (endpoint : String) (view_func : ViewFunc) : Pencil :=
  { app with
      url_map := app.url_map ++ [Rule.new matcher methods endpoint]
      view_functions := mapInsert app.view_functions endpoint view_func }

/-- Pencil::route. -/
def Pencil.route (app : Pencil) (rule : String) (methods : List Method)
    (endpoint : String) (view_func : ViewFunc) : Pencil :=
  app.add_url_rule rule methods endpoint view_func

/-- Pencil::enable_static_file_handling. -/
def Pencil.enable_static_file_handling (app : Pencil) : Pencil :=
  app.route (app.static_url_path ++ "/<filename:path>") [Method.Get] "static" ViewFunc.appStatic

/-- Pencil::before_request. -/
def Pencil.before_request (app : Pencil) (f : BeforeRequestFunc) : Pencil :=
  { app with before_request_funcs := app.before_request_funcs ++ [f] }

/-- Pencil::after_request. -/
def Pencil.after_request (app : Pencil) (f : AfterRequestFunc) : Pencil :=
  { app with after_request_funcs := app.after_request_funcs ++ [f] }

/-- Pencil::teardown_request. -/
def Pencil.teardown_request (app : Pencil) (f : TeardownRequestFunc) : Pencil :=
  { app with teardown_request_funcs := app.teardown_request_funcs ++ [f] }

/-- Pencil::register_http_error_handler (also the httperrorhandler alias). -/
def Pencil.register_http_error_handler (app : Pencil) (status_code : Nat)
    (f : HTTPErrorHandler) : Pencil :=
  { app with http_error_handlers := mapInsertNat app.http_error_handlers status_code f }

/-- Pencil::register_user_error_handler (also the usererrorhandler alias). -/
def Pencil.register_user_error_handler (app : Pencil) (error_desc : String)
    (f : UserErrorHandler) : Pencil :=
  { app with user_error_handlers := mapInsert app.user_error_handlers error_desc f }

/-- What the filesystem knows about a path: not a regular file, a regular
file that fails to open, or a regular file with its contents. -/
inductive FileStat where
  | absent
  | unopenable (msg : String)
  | file (bytes : List Nat)

/-- The external collaborators of spec section 6, supplied to the pipeline
as plain functions: the routing bind step (Request::match_request, which
stores exactly one routing outcome on the request), the allowed-methods
query of the URL adapter, the filesystem and the mime guesser. -/
structure Ext where
  matchRequest : Request → Request
  allowedMethods : Request → List Method
  fs : String → FileStat
  gm : String → String

/-- Whether the string has the second as a literal prefix (models
str::starts_with, and Path::is_absolute as starts_with "/" on unix). -/
def strStartsWith (s p : String) : Bool :=
  p.data.isPrefixOf s.data

/-- PathBuf::push / Path::join of a relative component, on the string
model of paths. -/
def pathJoin (d f : String) : String :=
  if d == "" then f
  else if d.data.getLast? = some '/' then d ++ f
  else d ++ "/" ++ f

/-- helpers.rs safe_join: reject absolute filenames, the filename "..",
and filenames prefixed with "../"; otherwise join them.  (The to_str
check of the source never fails on the string model.) -/
def safe_join (directory filename : String) : Option String :=
  if strStartsWith filename "/" || (filename == "..") || strStartsWith filename "../" then
    none
  else
    some (pathJoin directory filename)

/-- The last path component, accumulating characters and restarting at
each separator. -/
def lastComponent : List Char → List Char → List Char
  | [], acc => acc
  | c :: rest, acc =>
    if c = '/' then lastComponent rest []
    else lastComponent rest (acc ++ [c])

/-- Path::file_name on the string model: the last component, none when it
is empty or "..". -/
def pathFileName (p : String) : Option String :=
  let comp := lastComponent p.data []
  if comp.isEmpty || comp = ['.', '.'] then none else some (String.mk comp)

/-- Checked u64 subtraction: none models the Rust debug-assertion failure
on underflow. -/
def u64Sub (a b : Nat) : Option Nat :=
  if b ≤ a then some (a - b) else none

/-- Checked u64 addition: none models the Rust debug-assertion failure on
overflow past 2^64 - 1. -/
def u64Add (a b : Nat) : Option Nat :=
  if a + b < 18446744073709551616 then some (a + b) else none

/-- helpers.rs redirect: the redirect body produced by the format string. -/
def redirectBody (location : String) : String :=
  "<!DOCTYPE HTML PUBLIC \"-//W3C//DTD HTML 3.2 Final//EN\">\n<title>Redirecting...</title>\n<h1>Redirecting...</h1>\n<p>You should be redirected automatically to target URL: \n<a href=\"" ++ location ++ "\">" ++ location ++ "</a>.  If not click the link.\n"

/-- helpers.rs redirect: an HTML body, the requested status code, a
text/html content type (set_content_type appends the UTF-8 charset, per
the httputils contract) and a Location header. -/
def redirect (location : String) (code : Nat) : PencilResult :=
  let resp := Response.fromString (redirectBody location)
  let resp := { resp with status_code := code }
  let resp := { resp with headers := hset (.contentType "text/html; charset=UTF-8") resp.headers }
  let resp := { resp with headers := hset (.location location) resp.headers }
  .ok resp

/-- The Content-Disposition / filename block shared by the tail of
send_file and send_file_range. -/
def attachmentStep (filepath : String) (as_attachment : Bool) (resp : Response) :
    Except PencilError Response :=
  if as_attachment then
    match pathFileName filepath with
    | some filename =>
      .ok { resp with
              headers := hset (.raw "Content-Disposition" ("attachment; filename=" ++ filename)) resp.headers }
    | none =>
      .error (.PenUserError ⟨"filename unavailable, required for sending as attachment."⟩)
  else
    .ok resp

/-- The i64 value of `l as i64` for a u64 l: two's-complement
reinterpretation. -/
def u64AsI64 (l : Nat) : Int :=
  if l < 9223372036854775808 then (l : Int) else (l : Int) - 18446744073709551616

/-- helpers.rs send_file_range: serve a file, honouring a single-span
bytes Range header with status 206 and Content-Range/Content-Length
headers, refusing multi-span or non-bytes ranges with NotImplemented.
The outer Option is the panic layer: none marks a u64 arithmetic failure
(the source computes e-s+1, len-s, len-l and len-1 unchecked) or the
negation overflow of -(l as i64). -/
def send_file_range (ext : Ext) (filepath : String) (mimetype : String)
    (as_attachment : Bool) (range : Option RangeHeader) :
    Option (Except PencilError Response) :=
  match ext.fs filepath with
  | .absent => some (.error (.PenHTTPError NotFound))
  | .unopenable msg =>
    some (.error (.PenUserError ⟨"couldn't open " ++ filepath ++ ": " ++ msg⟩))
  | .file bytes =>
    let len := bytes.length
    let core : Option (Except PencilError Response) :=
      match range with
      | some (.Bytes specs) =>
        match specs with
        | [spec] =>
          match spec with
          | .FromTo s e =>
            match u64Sub e s with
            | none => none
            | some d =>
              match u64Add d 1 with
              | none => none
              | some limit =>
                let resp := Response.new (Body.bytes ((bytes.drop s).take limit))
                let resp := { resp with status_code := 206 }
                let resp := { resp with headers := hset (.contentLength limit) resp.headers }
                let resp := { resp with
                  headers := hset (.contentRange (some (s, e)) (some len)) resp.headers }
                some (.ok resp)
          | .AllFrom s =>
            let resp := Response.new (Body.bytes (bytes.drop s))
            let resp := { resp with status_code := 206 }
            match u64Sub len s with
            | none => none
            | some rest =>
              let resp := { resp with headers := hset (.contentLength rest) resp.headers }
              match u64Sub len 1 with
              | none => none
              | some last =>
                some (.ok { resp with
                  headers := hset (.contentRange (some (s, last)) (some len)) resp.headers })
          | .Last l =>
            if l = 9223372036854775808 then none
            else
              let fin : Int := (len : Int) + (-(u64AsI64 l))
              if fin < 0 then some (.error (.PenHTTPError InternalServerError))
              else
                let resp := Response.new (Body.bytes (bytes.drop fin.toNat))
                let resp := { resp with status_code := 206 }
                let resp := { resp with headers := hset (.contentLength l) resp.headers }
                match u64Sub len l with
                | none => none
                | some first =>
                  match u64Sub len 1 with
                  | none => none
                  | some last =>
                    some (.ok { resp with
                      headers := hset (.contentRange (some (first, last)) (some len)) resp.headers })
        | _ => some (.error (.PenHTTPError NotImplemented))
      | some (.Unregistered _ _) => some (.error (.PenHTTPError NotImplemented))
      | none =>
        let resp := Response.new (Body.bytes bytes)
        some (.ok { resp with headers := hset (.contentLength len) resp.headers })
    match core with
    | none => none
    | some (.error e) => some (.error e)
    | some (.ok resp) =>
      let resp := { resp with headers := hset (.contentType mimetype) resp.headers }
      some (attachmentStep filepath as_attachment resp)

/-- helpers.rs send_from_directory_range: safe_join the directory and the
filename (NotFound on rejection), guess the mimetype, delegate to
send_file_range. -/
def send_from_directory_range (ext : Ext) (directory filename : String)
    (as_attachment : Bool) (range : Option RangeHeader) :
    Option (Except PencilError Response) :=
  match safe_join directory filename with
  | some filepath => send_file_range ext filepath (ext.gm filepath) as_attachment range
  | none => some (.error (.PenHTTPError NotFound))

/-- Pencil::get_module: look the name up in the module map when there is
one. -/
def get_module (app : Pencil) : Option String → Option Module
  | some name => List.lookup name app.modules
  | none => none

/-- Run before-request hooks in order, threading the request; the first
hook returning a result stops the run. -/
def runBefore : List BeforeRequestFunc → Request → Request × Option PencilResult
  | [], req => (req, none)
  | f :: fs, req =>
    match f req with
    | (req1, some result) => (req1, some result)
    | (req1, none) => runBefore fs req1

/-- Pencil::preprocess_request: the owning module before-request hooks (if
the bound endpoint names a registered module), then the application
before-request hooks, stopping at the first returned result. -/
def preprocess_request (app : Pencil) (req : Request) : Request × Option PencilResult :=
  match get_module app req.module_name with
  | some m =>
    match runBefore m.before_request_funcs req with
    | (req1, some result) => (req1, some result)
    | (req1, none) => runBefore app.before_request_funcs req1
  | none => runBefore app.before_request_funcs req

/-- Pencil::make_default_options_response: on a bound rule with the
automatic-OPTIONS flag and an OPTIONS request, an empty response with an
Allow header listing the allowed methods of the URL adapter. -/
def make_default_options_response (ext : Ext) (req : Request) : Option Response :=
  match req.url_rule with
  | some rule =>
    if rule.provide_automatic_options && req.method == Method.Options then
      some { Response.new_empty with
               headers := hset (.allow (ext.allowedMethods req)) Response.new_empty.headers }
    else none
  | none => none

/-- Interpret a registered view function.  The user case applies the
stored handler; the two built-in cases replay send_app_static_file
(app.rs) and send_module_static_file (module.rs).  none models the
panicking unwrap of a missing "filename" view argument. -/
def runView (ext : Ext) (app : Pencil) (vf : ViewFunc) (req : Request) :
    Option (Request × PencilResult) :=
  match vf with
  | .user f => some (f req)
  | .appStatic =>
    match List.lookup "filename" req.view_args with
    | none => none
    | some filename =>
      match send_from_directory_range ext (pathJoin app.root_path app.static_folder)
          filename false req.rangeHeader with
      | none => none
      | some r => some (req, r)
  | .moduleStatic =>
    match req.module_name with
    | some module_name =>
      match List.lookup module_name app.modules with
      | some m =>
        match m.static_folder with
        | some module_static_folder =>
          match List.lookup "filename" req.view_args with
          | none => none
          | some filename =>
            match send_from_directory_range ext (pathJoin m.root_path module_static_folder)
                filename false req.rangeHeader with
            | none => none
            | some r => some (req, r)
        | none => some (req, .error (.PenHTTPError NotFound))
      | none => some (req, .error (.PenHTTPError NotFound))
    | none => some (req, .error (.PenHTTPError NotFound))

/-- Pencil::dispatch_request: routing error, else routing redirect, else
automatic OPTIONS, else view lookup by the bound endpoint (a missing
registry entry is a NotFound).  none models the panicking unwrap of a
request with no bound rule on the view-lookup path. -/
def dispatch_request (ext : Ext) (app : Pencil) (req : Request) :
    Option (Request × PencilResult) :=
  match req.routing_error with
  | some routing_error => some (req, .error (.PenHTTPError routing_error))
  | none =>
    match req.routing_redirect with
    | some (redirect_url, redirect_code) => some (req, redirect redirect_url redirect_code)
    | none =>
      match make_default_options_response ext req with
      | some default_options_response => some (req, .ok default_options_response)
      | none =>
        match req.endpoint with
        | none => none
        | some endpoint =>
          match List.lookup endpoint app.view_functions with
          | some view_func => runView ext app view_func req
          | none => some (req, .error (.PenHTTPError NotFound))

/-- Run after-request hooks in the given order, threading the response. -/
def runAfter (fs : List AfterRequestFunc) (req : Request) (resp : Response) : Response :=
  fs.foldl (fun r f => f req r) resp

/-- Pencil::process_response: the owning module after-request hooks in
reverse registration order, then the application after-request hooks in
reverse registration order. -/
def process_response (app : Pencil) (req : Request) (resp : Response) : Response :=
  let resp :=
    match get_module app req.module_name with
    | some m => runAfter m.after_request_funcs.reverse req resp
    | none => resp
  runAfter app.after_request_funcs.reverse req resp

/-- Run teardown hooks in the given order, threading the world. -/
def runTeardown (fs : List TeardownRequestFunc) (e : Option PencilError) (w : World) : World :=
  fs.foldl (fun w f => f e w) w

/-- Pencil::do_teardown_request: the owning module teardown hooks in
reverse registration order, then the application teardown hooks in
reverse registration order, each receiving the terminal error. -/
def do_teardown_request (app : Pencil) (req : Request) (e : Option PencilError)
    (w : World) : World :=
  let w :=
    match get_module app req.module_name with
    | some m => runTeardown m.teardown_request_funcs.reverse e w
    | none => w
  runTeardown app.teardown_request_funcs.reverse e w

/-- Pencil::handle_user_error: module table keyed by the description, then
application table, else the error propagates. -/
def handle_user_error (app : Pencil) (req : Request) (e : UserError) : PencilResult :=
  match get_module app req.module_name with
  | some m =>
    match List.lookup e.desc m.user_error_handlers with
    | some handler => handler e
    | none =>
      match List.lookup e.desc app.user_error_handlers with
      | some handler => handler e
      | none => .error (.PenUserError e)
  | none =>
    match List.lookup e.desc app.user_error_handlers with
    | some handler => handler e
    | none => .error (.PenUserError e)

/-- Pencil::handle_http_error: module table keyed by the status code, then
application table, else the default rendering of the error. -/
def handle_http_error (app : Pencil) (req : Request) (e : HTTPError) : PencilResult :=
  match get_module app req.module_name with
  | some m =>
    match List.lookup e.code m.http_error_handlers with
    | some handler => handler e
    | none =>
      match List.lookup e.code app.http_error_handlers with
      | some handler => handler e
      | none => .ok e.to_response
  | none =>
    match List.lookup e.code app.http_error_handlers with
    | some handler => handler e
    | none => .ok e.to_response

/-- Pencil::handle_all_error: dispatch on the error tag. -/
def handle_all_error (app : Pencil) (req : Request) : PencilError → PencilResult
  | .PenHTTPError e => handle_http_error app req e
  | .PenUserError e => handle_user_error app req e

/-- The line Pencil::log_error writes: "Error on {path} [{method}]:
{description}". -/
def logLine (req : Request) (e : PencilError) : String :=
  "Error on " ++ req.path ++ " [" ++ Method.str req.method ++ "]: " ++ e.description

/-- Pencil::log_error, on the explicit world. -/
def log_error (req : Request) (e : PencilError) (w : World) : World :=
  w ++ [logLine req e]

/-- Pencil::handle_error: log, then resolve an InternalServerError through
the status-code handler lookup, falling back to the bare 500 rendering. -/
def handle_error (app : Pencil) (req : Request) (e : PencilError) (w : World) :
    Response × World :=
  let w := log_error req e w
  match handle_http_error app req InternalServerError with
  | .ok response => (response, w)
  | .error _ => (InternalServerError.to_response, w)

/-- The error-recovery and post-processing tail of full_dispatch_request,
applied to the result produced by preprocessing or dispatch: failures go
through handle_all_error once; a successful (possibly handler-recovered)
response is post-processed; an unrecovered error is returned as the final
error. -/
def finishResult (app : Pencil) (req : Request) (result : PencilResult) :
    Request × Except PencilError Response :=
  match (match result with
         | .ok response => Except.ok response
         | .error e => handle_all_error app req e) with
  | .ok response => (req, .ok (process_response app req response))
  | .error e => (req, .error e)

/-- Pencil::full_dispatch_request: preprocess; dispatch unless a hook
short-circuited; recover errors and post-process via finishResult. -/
def full_dispatch_request (ext : Ext) (app : Pencil) (req : Request) :
    Option (Request × Except PencilError Response) :=
  match preprocess_request app req with
  | (req1, some result) => some (finishResult app req1 result)
  | (req1, none) =>
    match dispatch_request ext app req1 with
    | none => none
    | some (req2, result) => some (finishResult app req2 result)

/-- Pencil::handle_request: bind the request, run the full dispatch, on
failure synthesize the 500 response via handle_error, and always run the
teardown hooks with the terminal error value. -/
def handle_request (ext : Ext) (app : Pencil) (req : Request) (w : World) :
    Option (Request × Response × World) :=
  let req := ext.matchRequest req
  match full_dispatch_request ext app req with
  | none => none
  | some (req1, .ok response) =>
    some (req1, response, do_teardown_request app req1 none w)
  | some (req1, .error e) =>
    let (response, w1) := handle_error app req1 e w
    some (req1, response, do_teardown_request app req1 (some e) w1)

/-- Whether a string contains a dot (endpoint.contains('.')). -/
def containsDot (s : String) : Bool :=
  s.data.contains '.'

/-- Module::new. -/
def Module.new (name root_path : String) : Module :=
  { name := name
    root_path := root_path
    static_folder := none
    static_url_path := none
    template_folder := none
    before_request_funcs := []
    after_request_funcs := []
    teardown_request_funcs := []
    http_error_handlers := []
    user_error_handlers := []
    deferred_functions := []
    deferred_routes := [] }

/-- Module::route: reject endpoints containing a dot (none models the
panic), otherwise defer the route with the endpoint prefixed by the module
name and a dot. -/
def Module.route (m : Module) (rule : String) (methods : List Method)
    (endpoint : String) (view_func : ViewFunc) : Option Module :=
  if containsDot endpoint then none
  else
    some { m with
             deferred_routes :=
               m.deferred_routes ++ [(rule, methods, m.name ++ "." ++ endpoint, view_func)] }

/-- Module::before_request. -/
def Module.before_request (m : Module) (f : BeforeRequestFunc) : Module :=
  { m with before_request_funcs := m.before_request_funcs ++ [f] }

/-- Module::after_request. -/
def Module.after_request (m : Module) (f : AfterRequestFunc) : Module :=
  { m with after_request_funcs := m.after_request_funcs ++ [f] }

/-- Module::teardown_request. -/
def Module.teardown_request (m : Module) (f : TeardownRequestFunc) : Module :=
  { m with teardown_request_funcs := m.teardown_request_funcs ++ [f] }

/-- Module::httperrorhandler (module scoped). -/
def Module.httperrorhandler (m : Module) (status_code : Nat) (f : HTTPErrorHandler) : Module :=
  { m with http_error_handlers := mapInsertNat m.http_error_handlers status_code f }

/-- Module::usererrorhandler (module scoped). -/
def Module.usererrorhandler (m : Module) (error_desc : String) (f : UserErrorHandler) : Module :=
  { m with user_error_handlers := mapInsert m.user_error_handlers error_desc f }

/-- Module::record, shared by all app-scoped registrations. -/
def Module.record (m : Module) (cmd : DeferredCmd) : Module :=
  { m with deferred_functions := m.deferred_functions ++ [cmd] }

/-- Module::before_app_request. -/
def Module.before_app_request (m : Module) (f : BeforeRequestFunc) : Module :=
  m.record (.before f)

/-- Module::after_app_request. -/
def Module.after_app_request (m : Module) (f : AfterRequestFunc) : Module :=
  m.record (.after f)

/-- Module::teardown_app_request. -/
def Module.teardown_app_request (m : Module) (f : TeardownRequestFunc) : Module :=
  m.record (.teardown f)

/-- Module::app_httperrorhandler. -/
def Module.app_httperrorhandler (m : Module) (status_code : Nat) (h : HTTPErrorHandler) : Module :=
  m.record (.httph status_code h)

/-- Module::app_usererrorhandler. -/
def Module.app_usererrorhandler (m : Module) (error_desc : String) (h : UserErrorHandler) : Module :=
  m.record (.userh error_desc h)

/-- Replay one recorded app-scoped registration against the application:
each deferred closure of the source calls exactly the corresponding
application registration method. -/
def runDeferred (app : Pencil) : DeferredCmd → Pencil
  | .before f => app.before_request f
  | .after f => app.after_request f
  | .teardown f => app.teardown_request f
  | .httph code h => app.register_http_error_handler code h
  | .userh desc h => app.register_user_error_handler desc h

/-- The static-route synthesis step of Module::register: when a static
folder and a static URL path are both configured, defer one extra route
for `<static_url_path>/<filename:path>` on endpoint "static" bound to the
module static-file responder. -/
def addStaticRoute (m : Module) : Option Module :=
  match m.static_folder with
  | some _ =>
    match m.static_url_path with
    | some static_url_path =>
      m.route (static_url_path ++ "/<filename:path>") [Method.Get] "static" ViewFunc.moduleStatic
    | none => some m
  | none => some m

/-- Materialize deferred routes into the routing table and view registry,
in deferral order. -/
def materializeRoutes (app : Pencil)
    (routes : List (String × List Method × String × ViewFunc)) : Pencil :=
  routes.foldl (fun a r => a.add_url_rule r.1 r.2.1 r.2.2.1 r.2.2.2) app

/-- Replay deferred app-scoped registrations, in deferral order. -/
def replayDeferred (app : Pencil) (cmds : List DeferredCmd) : Pencil :=
  cmds.foldl runDeferred app

/-- Module::register: refuse a name collision (none models the panic),
synthesize the static route, materialize routes, replay deferred
registrations, and move the module (with its deferred queues emptied by
mem::replace) into the module map under its name. -/
def Module.register (m : Module) (app : Pencil) : Option Pencil :=
  if (List.lookup m.name app.modules).isSome then none
  else
    match addStaticRoute m with
    | none => none
    | some m1 =>
      let app1 := materializeRoutes app m1.deferred_routes
      let app2 := replayDeferred app1 m1.deferred_functions
      some { app2 with
               modules :=
                 mapInsert app2.modules m1.name
                   { m1 with deferred_routes := [], deferred_functions := [] } }

/-- Pencil::register_module. -/
def Pencil.register_module (app : Pencil) (m : Module) : Option Pencil :=
  m.register app

/-- The application with every user-error table (its own and the one of
each registered module) replaced arbitrarily; used to state that HTTP
error resolution never consults the user-error tables. -/
def replaceUserTables (app : Pencil) (uA : List (String × UserErrorHandler))
    (g : Module → List (String × UserErrorHandler)) : Pencil :=
  { app with
      user_error_handlers := uA
      modules := app.modules.map (fun p => (p.1, { p.2 with user_error_handlers := g p.2 })) }

/-- The application with every status-code table (its own and the one of
each registered module) replaced arbitrarily; used to state that user
error resolution never consults the status-code tables. -/
def replaceHttpTables (app : Pencil) (hA : List (Nat × HTTPErrorHandler))
    (g : Module → List (Nat × HTTPErrorHandler)) : Pencil :=
  { app with
      http_error_handlers := hA
      modules := app.modules.map (fun p => (p.1, { p.2 with http_error_handlers := g p.2 })) }

/-- A rule bound to the module endpoint "blog.show", used by the concrete
pipeline examples. -/
def ruleBlogShow : Rule :=
  { matcher := "/post", methods := [Method.Get], endpoint := "blog.show"
    provide_automatic_options := false }

/-- A request bound to the module endpoint "blog.show". -/
def reqBlog : Request :=
  { method := Method.Get, path := "/post", rangeHeader := none
    url_rule := some ruleBlogShow, view_args := [], routing_redirect := none
    routing_error := none, extensions := [] }

/-- A collaborator record whose routing step is the identity and whose
filesystem is empty. -/
def extTrivial : Ext :=
  { matchRequest := id, allowedMethods := fun _ => [], fs := fun _ => FileStat.absent
    gm := fun _ => "text/plain" }

/-- Example hook: tags the request and passes. -/
def bhTag : BeforeRequestFunc :=
  fun r => ({ r with extensions := r.extensions ++ [("saw", "bhTag")] }, none)

/-- Example hook: short-circuits with an empty response. -/
def bhStop : BeforeRequestFunc :=
  fun r => (r, some (.ok Response.new_empty))

/-- Example module for the preprocessing claim: two before-request
hooks. -/
def modC1 : Module :=
  { Module.new "blog" "/blog" with before_request_funcs := [bhTag, bhStop] }

/-- Example application for the preprocessing claim. -/
def appC1 : Pencil :=
  { Pencil.new "/srv" with modules := [("blog", modC1)], before_request_funcs := [bhTag] }

/-- Example module-scoped 404 handler. -/
def h404mod : HTTPErrorHandler :=
  fun _ => .ok { status_code := 404, headers := [], body := some (Body.str "module 404") }

/-- Example app-scoped 404 handler. -/
def h404app : HTTPErrorHandler :=
  fun _ => .ok { status_code := 404, headers := [], body := some (Body.str "app 404") }

/-- Example module for the error-resolution claim: a module-scoped 404
handler. -/
def modC2 : Module :=
  { Module.new "blog" "/blog" with http_error_handlers := [(404, h404mod)] }

/-- Example application for the error-resolution claim: both a module and
an app handler for 404. -/
def appC2 : Pencil :=
  { Pencil.new "/srv" with modules := [("blog", modC2)], http_error_handlers := [(404, h404app)] }

/-- Example teardown hooks appending a tag to the world. -/
def tdA : TeardownRequestFunc := fun _ w => w ++ ["tdA"]

def tdB : TeardownRequestFunc := fun _ w => w ++ ["tdB"]

def tdC : TeardownRequestFunc := fun _ w => w ++ ["tdC"]

def tdApp : TeardownRequestFunc := fun _ w => w ++ ["tdApp"]

/-- Example module for the hook-order claim: teardown hooks registered in
order [tdA, tdB, tdC]. -/
def modC3 : Module :=
  { Module.new "blog" "/blog" with teardown_request_funcs := [tdA, tdB, tdC] }

/-- Example application for the hook-order claim. -/
def appC3 : Pencil :=
  { Pencil.new "/srv" with modules := [("blog", modC3)], teardown_request_funcs := [tdApp] }

/-- Example view function that fails with a user error nobody handles. -/
def vfBoom : ViewFunc :=
  ViewFunc.user (fun r => (r, .error (.PenUserError ⟨"boom"⟩)))

/-- Example rule for the top-level failure claim. -/
def ruleC4 : Rule :=
  { matcher := "/x", methods := [Method.Get], endpoint := "e"
    provide_automatic_options := false }

/-- Example request for the top-level failure claim. -/
def reqC4 : Request :=
  { method := Method.Get, path := "/x", rangeHeader := none, url_rule := some ruleC4
    view_args := [], routing_redirect := none, routing_error := none, extensions := [] }

/-- Example application for the top-level failure claim: one view function
that always fails, no handlers. -/
def appC4 : Pencil :=
  { Pencil.new "/srv" with view_functions := [("e", vfBoom)] }

/-- The error the failing view function produces. -/
def errC4 : PencilError := .PenUserError ⟨"boom"⟩

/-- Example view function returning an empty response. -/
def vfOk : ViewFunc :=
  ViewFunc.user (fun r => (r, .ok Response.new_empty))

/-- Example modules with a colliding name, for the registration claim. -/
def modDupA : Module := Module.new "dup" "/a"

def modDupB : Module := Module.new "dup" "/b"

/-- The application after registering modDupA on a fresh app. -/
def appDupA : Pencil :=
  { Pencil.new "/srv" with modules := [("dup", modDupA)] }

/-- A ten-byte example file system: "f" holds bytes 10..19. -/
def bytes10 : List Nat := [10, 11, 12, 13, 14, 15, 16, 17, 18, 19]

/-- Collaborators exposing the ten-byte file under "f". -/
def extFile : Ext :=
  { matchRequest := id, allowedMethods := fun _ => []
    fs := fun p => if p = "f" then FileStat.file bytes10 else FileStat.absent
    gm := fun _ => "text/plain" }

theorem get_module_replaceUser (app : Pencil) (uA : List (String × UserErrorHandler))
    (g : Module → List (String × UserErrorHandler)) (mn : Option String) :
    get_module (replaceUserTables app uA g) mn
      = (get_module app mn).map (fun m => { m with user_error_handlers := g m }) := by
  cases mn with
  | none => rfl
  | some name =>
    simp only [get_module, replaceUserTables]
    induction app.modules with
    | nil => rfl
    | cons p t ih => cases hk : name == p.1 <;> simp [List.lookup, hk, ih]

theorem get_module_replaceHttp (app : Pencil) (hA : List (Nat × HTTPErrorHandler))
    (g : Module → List (Nat × HTTPErrorHandler)) (mn : Option String) :
    get_module (replaceHttpTables app hA g) mn
      = (get_module app mn).map (fun m => { m with http_error_handlers := g m }) := by
  cases mn with
  | none => rfl
  | some name =>
    simp only [get_module, replaceHttpTables]
    induction app.modules with
    | nil => rfl
    | cons p t ih => cases hk : name == p.1 <;> simp [List.lookup, hk, ih]

theorem runBefore_append (xs ys : List BeforeRequestFunc) (req : Request) :
    runBefore (xs ++ ys) req =
      match runBefore xs req with
      | (req1, some result) => (req1, some result)
      | (req1, none) => runBefore ys req1 := by
  induction xs generalizing req with
  | nil => simp [runBefore]
  | cons f fs ih =>
    simp only [List.cons_append, runBefore]
    rcases hf : f req with ⟨req1, o⟩
    cases o <;> simp [ih]

theorem runAfter_append (xs ys : List AfterRequestFunc) (req : Request) (resp : Response) :
    runAfter (xs ++ ys) req resp = runAfter ys req (runAfter xs req resp) := by
  simp [runAfter, List.foldl_append]

theorem runTeardown_append (xs ys : List TeardownRequestFunc) (e : Option PencilError)
    (w : World) :
    runTeardown (xs ++ ys) e w = runTeardown ys e (runTeardown xs e w) := by
  simp [runTeardown, List.foldl_append]

/-- C1: for a request whose bound endpoint belongs to a registered module,
preprocessing runs the module before-request hooks first and then the
application before-request hooks, each list in registration order (the
whole stage equals one run over the concatenated lists); the first hook
returning a non-empty result stops the run (the remaining hooks are never
applied); and when preprocessing short-circuits, that result becomes the
result the rest of the pipeline finishes from, and the dispatch stage is
skipped: the outcome is unchanged under arbitrary replacement of the view
function registry. -/
theorem pen_c1 (ext : Ext) (app : Pencil) (req : Request) (m : Module)
    (hm : get_module app req.module_name = some m) :
    preprocess_request app req
        = runBefore (m.before_request_funcs ++ app.before_request_funcs) req
    ∧ (∀ (f : BeforeRequestFunc) (fs : List BeforeRequestFunc) (r : Request),
         (f r).2.isSome → runBefore (f :: fs) r = f r)
    ∧ (∀ (req1 : Request) (result : PencilResult),
         preprocess_request app req = (req1, some result) →
         full_dispatch_request ext app req = some (finishResult app req1 result)
         ∧ ∀ vfs, full_dispatch_request ext { app with view_functions := vfs } req
             = full_dispatch_request ext app req) := by
  refine ⟨?_, ?_, ?_⟩
  · rw [runBefore_append]
    simp only [preprocess_request, hm]
  · intro f fs r hf
    rcases hr : f r with ⟨r1, o⟩
    cases o with
    | none => rw [hr] at hf; simp at hf
    | some result => simp [runBefore, hr]
  · intro req1 result hpre
    constructor
    · simp only [full_dispatch_request, hpre]
    · intro vfs
      have hpre2 : preprocess_request { app with view_functions := vfs } req
          = (req1, some result) := hpre
      simp only [full_dispatch_request, hpre, hpre2]
      rfl

/-- C1 witness: on a concrete app with a registered "blog" module and a
request bound to "blog.show", the preprocessing stage equals the run over
module hooks followed by app hooks. -/
theorem pen_c1_witness :
    get_module appC1 reqBlog.module_name = some modC1
    ∧ preprocess_request appC1 reqBlog
        = runBefore (modC1.before_request_funcs ++ appC1.before_request_funcs) reqBlog :=
  ⟨rfl, (pen_c1 extTrivial appC1 reqBlog modC1 rfl).1⟩

/-- C2: error recovery consults only the handler family matching the error
tag (HTTP resolution is invariant under arbitrary replacement of every
user-error table, and user resolution under replacement of every
status-code table); the owning module table is tried before the
application table (a module handler, when present, decides the outcome);
and an error returned by an invoked handler becomes the final error of the
pipeline without re-entering resolution (finishResult, the error-recovery
and post-processing tail of full_dispatch_request, returns it as is). -/
theorem pen_c2 (app : Pencil) (req : Request) :
    (∀ (e : HTTPError) (uA : List (String × UserErrorHandler))
        (g : Module → List (String × UserErrorHandler)),
       handle_all_error (replaceUserTables app uA g) req (.PenHTTPError e)
         = handle_all_error app req (.PenHTTPError e))
    ∧ (∀ (u : UserError) (hA : List (Nat × HTTPErrorHandler))
        (g : Module → List (Nat × HTTPErrorHandler)),
       handle_all_error (replaceHttpTables app hA g) req (.PenUserError u)
         = handle_all_error app req (.PenUserError u))
    ∧ (∀ (e : HTTPError) (m : Module) (h : HTTPErrorHandler),
       get_module app req.module_name = some m →
       List.lookup e.code m.http_error_handlers = some h →
       handle_all_error app req (.PenHTTPError e) = h e)
    ∧ (∀ (u : UserError) (m : Module) (h : UserErrorHandler),
       get_module app req.module_name = some m →
       List.lookup u.desc m.user_error_handlers = some h →
       handle_all_error app req (.PenUserError u) = h u)
    ∧ (∀ (r : Request) (e : PencilError) (e2 : PencilError),
       handle_all_error app r e = .error e2 →
       finishResult app r (.error e) = (r, .error e2)) := by
  refine ⟨?_, ?_, ?_, ?_, ?_⟩
  · intro e uA g
    simp only [handle_all_error, handle_http_error, get_module_replaceUser]
    cases get_module app req.module_name with
    | none => rfl
    | some m => rfl
  · intro u hA g
    simp only [handle_all_error, handle_user_error, get_module_replaceHttp]
    cases get_module app req.module_name with
    | none => rfl
    | some m => rfl
  · intro e m h hm hlook
    simp [handle_all_error, handle_http_error, hm, hlook]
  · intro u m h hm hlook
    simp [handle_all_error, handle_user_error, hm, hlook]
  · intro r e e2 hres
    simp [finishResult, hres]

/-- C2 witness: with both a module-scoped and an app-scoped handler for
status 404 on a module endpoint, the module handler decides the result. -/
theorem pen_c2_witness :
    (get_module appC2 reqBlog.module_name = some modC2
      ∧ List.lookup (HTTPError.code ⟨404⟩) modC2.http_error_handlers = some h404mod)
    ∧ handle_all_error appC2 reqBlog (.PenHTTPError ⟨404⟩) = h404mod ⟨404⟩ :=
  ⟨⟨rfl, rfl⟩, (pen_c2 appC2 reqBlog).2.2.1 ⟨404⟩ modC2 h404mod rfl rfl⟩

/-- C3: after-request and teardown hooks run in the reverse of their
registration order, module-scope list before application-scope list: the
post-processing and teardown stages equal one run over the two reversed
lists concatenated, and a run over the reversal of three hooks registered
as [a, b, c] invokes c, then b, then a. -/
theorem pen_c3 (app : Pencil) (req : Request) (m : Module)
    (hm : get_module app req.module_name = some m) :
    (∀ resp, process_response app req resp
        = runAfter (m.after_request_funcs.reverse ++ app.after_request_funcs.reverse) req resp)
    ∧ (∀ e w, do_teardown_request app req e w
        = runTeardown (m.teardown_request_funcs.reverse ++ app.teardown_request_funcs.reverse) e w)
    ∧ (∀ (a b c : AfterRequestFunc) (r : Request) (resp : Response),
        runAfter [a, b, c].reverse r resp = a r (b r (c r resp)))
    ∧ (∀ (a b c : TeardownRequestFunc) (e : Option PencilError) (w : World),
        runTeardown [a, b, c].reverse e w = a e (b e (c e w))) := by
  refine ⟨?_, ?_, ?_, ?_⟩
  · intro resp
    rw [runAfter_append]
    simp only [process_response, hm]
  · intro e w
    rw [runTeardown_append]
    simp only [do_teardown_request, hm]
  · intro a b c r resp
    simp [runAfter]
  · intro a b c e w
    simp [runTeardown]

/-- C3 witness: with module teardown hooks registered as [tdA, tdB, tdC]
and one app teardown hook, teardown emits the module tags in reverse
order, then the app tag. -/
theorem pen_c3_witness :
    get_module appC3 reqBlog.module_name = some modC3
    ∧ do_teardown_request appC3 reqBlog none [] = ["tdC", "tdB", "tdA", "tdApp"] :=
  ⟨rfl, ((pen_c3 appC3 reqBlog modC3 rfl).2.1 none []).trans rfl⟩

/-- C4: when the pipeline ends in an unhandled error, handle_request logs
one line carrying the request path, the request method and the error
description, produces the response by the Internal-Server-Error
status-code handler lookup (module scope before application scope inside
handle_http_error), falls back to the bare 500 rendering when no handler
succeeds, and still runs the teardown stage afterwards with the terminal
error value. -/
theorem pen_c4 (ext : Ext) (app : Pencil) (req : Request) (w : World)
    (req1 : Request) (e : PencilError)
    (hfd : full_dispatch_request ext app (ext.matchRequest req) = some (req1, .error e)) :
    handle_request ext app req w
      = some (req1,
          (match handle_http_error app req1 InternalServerError with
           | .ok response => response
           | .error _ => InternalServerError.to_response),
          do_teardown_request app req1 (some e) (w ++ [logLine req1 e]))
    ∧ ((∀ m, get_module app req1.module_name = some m →
          List.lookup 500 m.http_error_handlers = none) →
        List.lookup 500 app.http_error_handlers = none →
        (match handle_http_error app req1 InternalServerError with
         | .ok response => response
         | .error _ => InternalServerError.to_response) = InternalServerError.to_response)
    ∧ logLine req1 e
        = "Error on " ++ req1.path ++ " [" ++ Method.str req1.method ++ "]: " ++ e.description := by
  refine ⟨?_, ?_, rfl⟩
  · simp only [handle_request, hfd, handle_error, log_error]
    cases handle_http_error app req1 InternalServerError <;> rfl
  · intro hmod happ
    have hcode : InternalServerError.code = 500 := rfl
    cases hgm : get_module app req1.module_name with
    | none => simp [handle_http_error, hgm, hcode, happ, HTTPError.to_response]
    | some m =>
      have := hmod m hgm
      simp [handle_http_error, hgm, hcode, this, happ, HTTPError.to_response]

/-- C4 witness: a concrete app whose only view function fails with an
unhandled user error "boom": handle_request yields the bare 500 rendering,
the world holds the log line for path "/x", method GET and description
"boom", and teardown ran after logging. -/
theorem pen_c4_witness :
    full_dispatch_request extTrivial appC4 (extTrivial.matchRequest reqC4)
        = some (reqC4, .error errC4)
    ∧ handle_request extTrivial appC4 reqC4 []
        = some (reqC4, InternalServerError.to_response, ["Error on /x [GET]: boom"]) :=
  ⟨rfl, ((pen_c4 extTrivial appC4 reqC4 [] reqC4 errC4 rfl).1).trans rfl⟩

/-- C5: a module route registered under endpoint E defers the
application-level endpoint "<module-name>.<E>"; an endpoint containing the
separator dot is rejected at registration time (the panic, modelled as
none); and for a module named "blog" registering "/post" as endpoint
"show", registration materializes exactly the application-level endpoint
"blog.show" into the view registry and the routing table. -/
theorem pen_c5 (m : Module) (mt : String) (ms : List Method) (E : String) (vf : ViewFunc) :
    (containsDot E = false →
       Module.route m mt ms E vf
         = some { m with
                    deferred_routes :=
                      m.deferred_routes ++ [(mt, ms, m.name ++ "." ++ E, vf)] })
    ∧ (containsDot E = true → Module.route m mt ms E vf = none)
    ∧ (∀ m1 : Module,
        Module.route (Module.new "blog" "/bp") "/post" [Method.Get] "show" vf = some m1 →
        ∃ app1, Module.register m1 (Pencil.new "/srv") = some app1
          ∧ List.lookup "blog.show" app1.view_functions = some vf
          ∧ app1.url_map.map Rule.endpoint = ["blog.show"]) := by
  refine ⟨?_, ?_, ?_⟩
  · intro h
    simp [Module.route, h]
  · intro h
    simp [Module.route, h]
  · intro m1 hroute
    have hdot : containsDot "show" = false := rfl
    simp only [Module.route, hdot, Bool.false_eq_true, if_false] at hroute
    injection hroute with h
    subst h
    exact ⟨_, rfl, rfl, rfl⟩

/-- C5 witness: the general endpoint-prefixing conclusion instantiated at
a concrete module named "blog" and endpoint "show". -/
theorem pen_c5_witness :
    containsDot "show" = false
    ∧ Module.route (Module.new "blog" "/bp") "/post" [Method.Get] "show" vfOk
        = some { Module.new "blog" "/bp" with
                   deferred_routes :=
                     (Module.new "blog" "/bp").deferred_routes
                       ++ [("/post", [Method.Get],
                            (Module.new "blog" "/bp").name ++ "." ++ "show", vfOk)] } :=
  ⟨rfl, (pen_c5 (Module.new "blog" "/bp") "/post" [Method.Get] "show" vfOk).1 rfl⟩

/-- C6: registering a module whose name is already present in the module
map fails (the panic, modelled as none), in either registration order of
two same-named modules; otherwise register synthesizes the deferred
static route, materializes every deferred route into the routing table
and view registry, replays every deferred app-scoped registration, and
finally moves the module, with its deferred queues emptied, into the
module map under its name. -/
theorem pen_c6 (m : Module) (app : Pencil) :
    ((List.lookup m.name app.modules).isSome → Module.register m app = none)
    ∧ (∀ (m2 : Module) (app1 : Pencil), m2.name = m.name →
        Module.register m app = some app1 → Module.register m2 app1 = none)
    ∧ (List.lookup m.name app.modules = none →
        ∃ m1, addStaticRoute m = some m1 ∧ m1.name = m.name
          ∧ Module.register m app
              = some { replayDeferred (materializeRoutes app m1.deferred_routes)
                         m1.deferred_functions with
                       modules :=
                         mapInsert (replayDeferred (materializeRoutes app m1.deferred_routes)
                             m1.deferred_functions).modules m1.name
                           { m1 with deferred_routes := [], deferred_functions := [] } }) := by
  have hstatic : ∀ mm : Module, ∃ m1, addStaticRoute mm = some m1 ∧ m1.name = mm.name := by
    intro mm
    unfold addStaticRoute
    cases mm.static_folder with
    | none => exact ⟨mm, rfl, rfl⟩
    | some sf =>
      cases mm.static_url_path with
      | none => exact ⟨mm, rfl, rfl⟩
      | some sup =>
        have hdot : containsDot "static" = false := rfl
        simp [Module.route, hdot]
  refine ⟨?_, ?_, ?_⟩
  · intro h
    simp [Module.register, h]
  · intro m2 app1 hname hreg
    rcases hsome : List.lookup m.name app.modules with _ | mm
    · rcases hstatic m with ⟨m1, hadd, hm1name⟩
      simp only [Module.register, hsome, Option.isSome_none, Bool.false_eq_true, if_false,
        hadd] at hreg
      have hmods : app1.modules
          = mapInsert (replayDeferred (materializeRoutes app m1.deferred_routes)
              m1.deferred_functions).modules m1.name
              { m1 with deferred_routes := [], deferred_functions := [] } := by
        injection hreg with h
        rw [← h]
      have hlk : (List.lookup m2.name app1.modules).isSome := by
        rw [hmods, hname, ← hm1name]
        simp [mapInsert, List.lookup]
      simp [Module.register, hlk]
    · simp [Module.register, hsome] at hreg
  · intro hnone
    rcases hstatic m with ⟨m1, hadd, hm1name⟩
    refine ⟨m1, hadd, hm1name, ?_⟩
    simp [Module.register, hnone, hadd]

/-- C6 witness: registering modDupA on a fresh app succeeds and yields
appDupA; registering the same-named modDupB on the result fails. -/
theorem pen_c6_witness :
    modDupB.name = modDupA.name
    ∧ Module.register modDupA (Pencil.new "/srv") = some appDupA
    ∧ Module.register modDupB appDupA = none :=
  ⟨rfl, rfl, (pen_c6 modDupA (Pencil.new "/srv")).2.1 modDupB appDupA rfl rfl⟩

/-- C7: on an existing regular file, a bytes range header with a single
from-to span yields status 206, a body holding the file bytes from `from`
limited to `to - from + 1` of them, Content-Length equal to
`to - from + 1`, and Content-Range carrying the span and the full file
size as instance length. -/
theorem pen_c7 (ext : Ext) (path mt : String) (bytes : List Nat) (s e : Nat)
    (hfs : ext.fs path = FileStat.file bytes) (hse : s ≤ e)
    (hbound : e - s + 1 < 18446744073709551616) :
    ∃ resp, send_file_range ext path mt false
        (some (.Bytes [.FromTo s e])) = some (.ok resp)
      ∧ resp.status_code = 206
      ∧ getContentLength resp.headers = some (e - s + 1)
      ∧ getContentRange resp.headers = some (some (s, e), some bytes.length)
      ∧ resp.body = some (Body.bytes ((bytes.drop s).take (e - s + 1))) := by
  unfold send_file_range
  rw [hfs]
  simp only [u64Sub, u64Add, if_pos hse, if_pos hbound]
  exact ⟨_, rfl, rfl, rfl, rfl, rfl⟩

/-- C7 witness: a ten-byte file requested with bytes=2-5 yields 206,
Content-Length 4, Content-Range bytes 2-5/10, and exactly bytes [2,5] of
the file as body. -/
theorem pen_c7_witness :
    (extFile.fs "f" = FileStat.file bytes10 ∧ 2 ≤ 5)
    ∧ ∃ resp, send_file_range extFile "f" "text/plain" false
          (some (.Bytes [.FromTo 2 5])) = some (.ok resp)
        ∧ resp.status_code = 206
        ∧ getContentLength resp.headers = some 4
        ∧ getContentRange resp.headers = some (some (2, 5), some 10)
        ∧ resp.body = some (Body.bytes [12, 13, 14, 15]) := by
  refine ⟨⟨rfl, by decide⟩, ?_⟩
  obtain ⟨resp, h1, h2, h3, h4, h5⟩ :=
    pen_c7 extFile "f" "text/plain" bytes10 2 5 rfl (by decide) (by decide)
  exact ⟨resp, h1, h2, h3, h4, h5⟩

/-- C8: on an existing regular file, a bytes range header with any number
of spans other than one fails with NotImplemented (never a partial
success), and a range header with a non-bytes range unit also fails with
NotImplemented, whatever the attachment flag. -/
theorem pen_c8 (ext : Ext) (path mt : String) (bytes : List Nat) (att : Bool)
    (hfs : ext.fs path = FileStat.file bytes) :
    (∀ specs : List ByteRangeSpec, 2 ≤ specs.length →
       send_file_range ext path mt att (some (.Bytes specs))
         = some (.error (.PenHTTPError NotImplemented)))
    ∧ (∀ u v, send_file_range ext path mt att (some (.Unregistered u v))
         = some (.error (.PenHTTPError NotImplemented))) := by
  constructor
  · intro specs hlen
    unfold send_file_range
    rw [hfs]
    rcases specs with _ | ⟨a, _ | ⟨b, t⟩⟩
    · simp at hlen
    · simp at hlen
    · rfl
  · intro u v
    unfold send_file_range
    rw [hfs]

/-- C8 witness: the multi-span header bytes=0-1,3-4 on the ten-byte file
yields NotImplemented. -/
theorem pen_c8_witness :
    (extFile.fs "f" = FileStat.file bytes10
      ∧ 2 ≤ ([ByteRangeSpec.FromTo 0 1, ByteRangeSpec.FromTo 3 4] : List ByteRangeSpec).length)
    ∧ send_file_range extFile "f" "text/plain" false
        (some (.Bytes [.FromTo 0 1, .FromTo 3 4]))
        = some (.error (.PenHTTPError NotImplemented)) :=
  ⟨⟨rfl, by decide⟩,
   (pen_c8 extFile "f" "text/plain" bytes10 false rfl).1
     [ByteRangeSpec.FromTo 0 1, ByteRangeSpec.FromTo 3 4] (by decide)⟩

/-- C9: the directory-join helper rejects absolute filenames, the filename
"..", and filenames prefixed with "../"; consequently the directory range
sender answers NotFound for the filename "../secret" whatever the
collaborators, directory, attachment flag and range header, so no
filesystem read outside the configured root can happen. -/
theorem pen_c9 :
    (∀ d f : String,
       (strStartsWith f "/" = true ∨ f = ".." ∨ strStartsWith f "../" = true) →
       safe_join d f = none)
    ∧ (∀ (ext : Ext) (d : String) (att : Bool) (r : Option RangeHeader),
       send_from_directory_range ext d "../secret" att r
         = some (.error (.PenHTTPError NotFound))) := by
  constructor
  · intro d f h
    unfold safe_join
    rcases h with h | h | h
    · simp [h]
    · subst h
      rfl
    · simp [h]
  · intro ext d att r
    rfl

/-- C9 witness: "../secret" is "../"-prefixed and safe_join rejects it. -/
theorem pen_c9_witness :
    strStartsWith "../secret" "../" = true
    ∧ safe_join "/srv/static" "../secret" = none :=
  ⟨rfl, pen_c9.1 "/srv/static" "../secret" (Or.inr (Or.inr rfl))⟩

/-- C10 counterexample: the claim that the from-to computation of
send_file_range never underflows even when to < from is false: on an
existing ten-byte file, the span bytes=5-2 makes the unchecked u64
subtraction to - from underflow (a Rust arithmetic failure, the none of
the panic layer), so the function is not total there. -/
theorem pen_c10_cex :
    send_file_range extFile "f" "text/plain" false
        (some (.Bytes [.FromTo 5 2])) = none := rfl

/-- C10 (amended): for a single from-to span on an existing regular file,
send_file_range is total exactly on the spans with from ≤ to (whose length
fits u64): there it returns a value, while for to < from the unchecked
computation to - from underflows u64 arithmetic and the call fails
(panics under debug assertions) instead of returning. -/
theorem pen_c10 (ext : Ext) (path mt : String) (bytes : List Nat) (att : Bool) (s e : Nat)
    (hfs : ext.fs path = FileStat.file bytes) :
    (s ≤ e → e - s + 1 < 18446744073709551616 →
       (send_file_range ext path mt att (some (.Bytes [.FromTo s e]))).isSome)
    ∧ (e < s →
       send_file_range ext path mt att (some (.Bytes [.FromTo s e])) = none) := by
  constructor
  · intro hse hbound
    unfold send_file_range
    rw [hfs]
    simp only [u64Sub, u64Add, if_pos hse, if_pos hbound]
    rfl
  · intro hlt
    unfold send_file_range
    rw [hfs]
    have hns : ¬ s ≤ e := by omega
    simp [u64Sub, hns]

/-- C10 witness: on the ten-byte file, the valid span bytes=1-3 returns a
value. -/
theorem pen_c10_witness :
    ((1 : Nat) ≤ 3 ∧ (3 : Nat) - 1 + 1 < 18446744073709551616)
    ∧ (send_file_range extFile "f" "text/plain" false
        (some (.Bytes [.FromTo 1 3]))).isSome :=
  ⟨⟨by decide, by decide⟩,
   (pen_c10 extFile "f" "text/plain" bytes10 false 1 3 rfl).1 (by decide) (by decide)⟩

end Pen
